import Mathlib

/-!
Verification development for the `jma` Rust library, a client for the JMA
(Japan Meteorological Agency) weather-data web service.  The definitions
below are a shallow embedding of the library's source code:

* `src/area.rs`     — area hierarchy (`JmaAreaClass`, `RawArea`, `Area`,
  `Areas` with `values`, `search`, `parent`, `ancestor`);
* `src/amedas.rs`   — AMeDAS observation data (`create_amedas_url`,
  `Amedas::get_latest_data`, `AmedasData::from`, the direction/emoji tables);
* `src/forecast.rs` — forecast reader (`JmaForecast::get_temperature_points`,
  `JmaForecast::temperature_forecast`).

Modelling conventions:
* Rust `HashMap<String, V>` becomes an association list `List (String × V)`
  with distinct keys (`lookup` is a first-match scan, which coincides with
  the hash map on key-distinct lists);
* Rust `f32` fields become `Int`: the library only ever copies these values
  around, it never performs floating-point arithmetic on them;
* a Rust panic (`unwrap` on `None`/`Err`, out-of-bounds slice indexing)
  becomes `Option.none` or a dedicated `panicked` constructor;
* the wall clock (`Local::now().hour()`) becomes an explicit `hour : Nat`
  argument.
-/

namespace Jma

/-! ### Character-list string primitives

The Rust string operations the library uses (`starts_with`,
`to_lowercase`, `Ord` on `String`, `str::parse::<u64>`) are embedded as
structural recursions over the character list of a `String`, so that every
definition in this file evaluates by `decide`/`rfl` on concrete input.
`to_lowercase` is modelled on its ASCII behaviour, which is all the claims
exercise. -/

/-- Whether `cs` starts with `p` (Rust `str::starts_with`). -/
def charsStartWith : List Char → List Char → Bool
  | _, [] => true
  | [], _ :: _ => false
  | c :: cs, p :: ps => c == p && charsStartWith cs ps

/-- Rust `str::starts_with` on strings. -/
def strStartsWith (s p : String) : Bool :=
  charsStartWith s.data p.data

/-- Rust `str::ends_with` on strings. -/
def strEndsWith (s p : String) : Bool :=
  charsStartWith s.data.reverse p.data.reverse

/-- Rust `str::to_lowercase` (ASCII behaviour). -/
def strToLower (s : String) : String :=
  ⟨s.data.map Char.toLower⟩

/-- Byte-lexicographic `<` of Rust's `Ord for String`; on UTF-8 the byte
order coincides with the code-point order used here. -/
def charsLt : List Char → List Char → Bool
  | [], [] => false
  | [], _ :: _ => true
  | _ :: _, [] => false
  | a :: as, b :: bs => a < b || (a == b && charsLt as bs)

/-- Rust `String` `<`. -/
def strLt (s t : String) : Bool :=
  charsLt s.data t.data

/-- Embedding of `enum JmaAreaClass` from `src/area.rs`. -/
inductive JmaAreaClass where
  | Center
  | Office
  | Class10
  | Class15
  | Class20
deriving DecidableEq, Repr

namespace JmaAreaClass

/-- Embedding of `JmaAreaClass::parent` (`src/area.rs` lines 161-169). -/
def parent : JmaAreaClass → Option JmaAreaClass
  | Center => none
  | Office => some Center
  | Class10 => some Office
  | Class15 => some Class10
  | Class20 => some Class15

/-- Embedding of `JmaAreaClass::child` (`src/area.rs` lines 172-180). -/
def child : JmaAreaClass → Option JmaAreaClass
  | Center => some Office
  | Office => some Class10
  | Class10 => some Class15
  | Class15 => some Class20
  | Class20 => none

/-- Depth of a class in the five-level hierarchy: `Center` is the root at
level 0, `Class20` the leaf at level 4.  Used as the termination measure of
the ancestor walk. -/
def level : JmaAreaClass → Nat
  | Center => 0
  | Office => 1
  | Class10 => 2
  | Class15 => 3
  | Class20 => 4

/-- Needed to define `Areas.ancestor` by well-founded recursion: a parent
class sits strictly closer to the root. -/
theorem parent_level_lt {c p : JmaAreaClass} (h : c.parent = some p) :
    p.level < c.level := by
  cases c <;> simp [parent] at h <;> simp [← h, level]

end JmaAreaClass

/-- Embedding of `struct RawArea` from `src/area.rs`. -/
structure RawArea where
  name : String
  en_name : String
  kana : Option String
  parent : Option String
  office_name : Option String
  children : Option (List String)
deriving DecidableEq, Repr

/-- Embedding of `struct Area` from `src/area.rs`.  The Rust field `class`
is a Lean keyword and is spelled `cls` here. -/
structure Area where
  area : RawArea
  cls : JmaAreaClass
  code : String
deriving DecidableEq, Repr

/-- Embedding of `Area::new` (`src/area.rs` lines 216-222). -/
def Area.new (cls : JmaAreaClass) (code : String) (raw : RawArea) : Area :=
  { area := raw, cls := cls, code := code }

/-- Embedding of `struct Areas` from `src/area.rs`: the five per-level
`HashMap<String, RawArea>` tables, as association lists. -/
structure Areas where
  centers : List (String × RawArea)
  offices : List (String × RawArea)
  class10s : List (String × RawArea)
  class15s : List (String × RawArea)
  class20s : List (String × RawArea)
deriving DecidableEq, Repr

namespace Areas

/-- Embedding of `Areas::areas` (`src/area.rs` lines 259-267): the table of
one level. -/
def areas (self : Areas) : JmaAreaClass → List (String × RawArea)
  | JmaAreaClass.Center => self.centers
  | JmaAreaClass.Office => self.offices
  | JmaAreaClass.Class10 => self.class10s
  | JmaAreaClass.Class15 => self.class15s
  | JmaAreaClass.Class20 => self.class20s

/-- Embedding of `Areas::values` (`src/area.rs` lines 244-257): exact key
lookup scoped to one level. -/
def values (self : Areas) (cls : JmaAreaClass) (code : String) : Option Area :=
  match (self.areas cls).lookup code with
  | some v => some (Area.new cls code v)
  | none => none

/-- The fixed scan order of `Areas::search` (`src/area.rs` lines 272-278). -/
def searchOrder : List JmaAreaClass :=
  [JmaAreaClass.Center, JmaAreaClass.Office, JmaAreaClass.Class10,
   JmaAreaClass.Class15, JmaAreaClass.Class20]

/-- Embedding of the body of the per-entry part of `Areas::search`
(`src/area.rs` lines 280-294): the code-equality check, then the `name` and
`en_name` checks in the order of the inner `for k in ["name", "en_name"]`
loop.  Note that the Rust code compares the raw `name` against the
lower-cased keyword, while `en_name` is itself lower-cased first.  The
`values(...).unwrap()` of the source is modelled by `Option.toList`
(the key was just taken from the table, so `values` cannot miss). -/
def searchEntry (self : Areas) (cls : JmaAreaClass) (keyword : String)
    (kv : String × RawArea) : List Area :=
  (if kv.1 = keyword then (self.values cls kv.1).toList else []) ++
  (if strStartsWith kv.2.name (strToLower keyword) then (self.values cls kv.1).toList
   else []) ++
  (if strStartsWith (strToLower kv.2.en_name) (strToLower keyword) then
    (self.values cls kv.1).toList
   else [])

/-- Embedding of `Areas::search` (`src/area.rs` lines 270-297). -/
def search (self : Areas) (keyword : String) : List Area :=
  searchOrder.flatMap fun cls =>
    (self.areas cls).flatMap fun kv => self.searchEntry cls keyword kv

/-- Embedding of `Areas::parent` (`src/area.rs` lines 322-331): resolve the
record's parent code one level up. -/
def parent (self : Areas) (a : Area) : Option Area :=
  match a.area.parent with
  | none => none
  | some code =>
    match a.cls.parent with
    | some cls => self.values cls code
    | none => none

/-- Needed to define `Areas.ancestor` by well-founded recursion:
`Areas::values` tags its result with the class it was asked for. -/
theorem values_cls {self : Areas} {cls : JmaAreaClass} {code : String} {a : Area}
    (h : self.values cls code = some a) : a.cls = cls ∧ a.code = code := by
  unfold values at h
  cases hl : (self.areas cls).lookup code <;> rw [hl] at h
  · exact absurd h (by simp)
  · cases h
    exact ⟨rfl, rfl⟩

/-- Needed to define `Areas.ancestor` by well-founded recursion: one
`Areas::parent` step strictly decreases the class level. -/
theorem parent_cls_level {self : Areas} {a q : Area} (h : self.parent a = some q) :
    q.cls.level < a.cls.level := by
  unfold parent at h
  cases hp : a.area.parent <;> rw [hp] at h
  · exact absurd h (by simp)
  · cases hc : a.cls.parent <;> rw [hc] at h
    · exact absurd h (by simp)
    · rcases values_cls h with ⟨hcls, _⟩
      rw [hcls]
      exact JmaAreaClass.parent_level_lt hc

/-- Embedding of `Areas::ancestor` (`src/area.rs` lines 334-346).  The Rust
`loop` terminates because each `parent` step strictly decreases the class
level; that measure is the termination argument here. -/
def ancestor (self : Areas) (a : Area) (cls : JmaAreaClass) : Option Area :=
  if a.cls = cls then some a
  else
    match h : self.parent a with
    | some q => self.ancestor q cls
    | none => none
termination_by a.cls.level
decreasing_by exact parent_cls_level h

/-- The ancestor walk of `Areas::ancestor` with an explicit bound on the
number of `parent` resolutions: `fuel` is how many parent steps may still be
taken.  `ancestorSteps self fuel a cls` performs at most `fuel` parent
lookups. -/
def ancestorSteps (self : Areas) : Nat → Area → JmaAreaClass → Option Area
  | fuel, a, cls =>
    if a.cls = cls then some a
    else
      match fuel with
      | 0 => none
      | fuel + 1 =>
        match self.parent a with
        | some q => self.ancestorSteps fuel q cls
        | none => none

/-- Definition following the words of the spec claim about `Areas::search`:
an entry matches if "its code equals the keyword verbatim, or its localized
name starts with the keyword, or its lower-cased English name starts with
the lower-cased keyword". -/
def claimCriteria (keyword : String) : List (String × RawArea → Bool) :=
  [fun kv => kv.1 == keyword,
   fun kv => strStartsWith kv.2.name keyword,
   fun kv => strStartsWith (strToLower kv.2.en_name) (strToLower keyword)]

/-- Definition following the words of the amended claim: the localized-name
criterion compares against the lower-cased keyword (which is what the Rust
code does: `value.name.starts_with(&keyword.to_lowercase())`). -/
def amendedCriteria (keyword : String) : List (String × RawArea → Bool) :=
  [fun kv => kv.1 == keyword,
   fun kv => strStartsWith kv.2.name (strToLower keyword),
   fun kv => strStartsWith (strToLower kv.2.en_name) (strToLower keyword)]

/-- Spec-side description of the search result: scan the levels in the fixed
order, and emit each record once per matched criterion. -/
def searchSpec (criteria : String → List (String × RawArea → Bool))
    (self : Areas) (keyword : String) : List Area :=
  searchOrder.flatMap fun cls =>
    (self.areas cls).flatMap fun kv =>
      (criteria keyword).filterMap fun crit =>
        if crit kv then some (Area.new cls kv.1 kv.2) else none

/-- The keys of each per-level table are distinct — true of every `Areas`
value the library builds, since the tables are Rust `HashMap`s. -/
def keysNodup (self : Areas) : Prop :=
  ∀ cls : JmaAreaClass, ((self.areas cls).map Prod.fst).Nodup

end Areas

/-! ## AMeDAS observation data (`src/amedas.rs`) -/

/-- Embedding of `enum AmedasError` from `src/amedas.rs`.  The payloads of
the first two variants are external library error values and carry no
information the claims need. -/
inductive AmedasError where
  | chronoParseError
  | reqwestError
  | noData (msg : String)
deriving DecidableEq, Repr

/-- Embedding of `struct AmedasRawData` from `src/amedas.rs`.  Rust `f32`
payloads become `Int`: the library only copies them, never computes with
them.  The second component of each pair is the quality flag (`u32`). -/
structure AmedasRawData where
  pressure : Int × Nat
  temp : Int × Nat
  humidity : Int × Nat
  visibility : Int × Nat
  weather : Option (Nat × Nat)
  snow1h : Option (Int × Nat)
  precipitation10m : Int × Nat
  wind_direction : Option Nat × Nat
  wind : Option Int × Nat
deriving DecidableEq, Repr

/-- Embedding of Rust's `str::parse::<u64>()`: an optional leading `+`,
then one or more ASCII digits, value below `2 ^ 64`. -/
def parseU64 (s : String) : Option Nat :=
  let cs := match s.data with
    | '+' :: rest => rest
    | cs => cs
  if cs.isEmpty then none
  else if cs.all Char.isDigit then
    let n := cs.foldl (fun acc c => acc * 10 + (c.toNat - 48)) 0
    if n < 2 ^ 64 then some n else none
  else none

/-- Embedding of Rust's `Iterator::min` over strings (byte-lexicographic;
on UTF-8 that order coincides with the code-point order used by Lean's
`String` order).  The first minimum wins ties, as in Rust. -/
def strMinFold : List String → Option String
  | [] => none
  | h :: t => some (t.foldl (fun m k => if strLt k m then k else m) h)

/-- Embedding of `Amedas::get_latest_data` (`src/amedas.rs` lines 366-388),
taking the `data` map of the `Amedas` struct directly.  The numeric maximum
of the parseable keys is rendered back to a string and looked up; the
string-minimum key among entries carrying a weather value provides the
`weather`/`snow1h` overlay.  The `self.data[dt]` indexing of the source
(which would panic on a missing key) is the innermost `none` case. -/
def get_latest_data (data : List (String × AmedasRawData)) : Option AmedasRawData :=
  let datetime : List Nat := data.filterMap fun kv => parseU64 kv.1
  match datetime.max? with
  | none => none
  | some latest =>
    let latest_weather_datetime :=
      strMinFold (data.filterMap fun kv => if kv.2.weather.isSome then some kv.1 else none)
    match data.lookup (toString latest) with
    | none => none
    | some latest_data =>
      match latest_weather_datetime with
      | none => some latest_data
      | some dt =>
        match data.lookup dt with
        | none => none
        | some w => some { latest_data with weather := w.weather, snow1h := w.snow1h }

/-- Embedding of `AMEDAS_WIND_DIRECTION_STR` (`src/amedas.rs` lines
124-142): the 17-entry compass table, index 0 is calm. -/
def AMEDAS_WIND_DIRECTION_STR : List String :=
  ["--", "NNE", "NE", "ENE", "E", "ESE", "SE", "SSE", "S", "SSW", "SW",
   "WSW", "W", "WNW", "NW", "NNW", "N"]

/-- Embedding of `AMEDAS_WIND_DIRECTION_ARROW` (`src/amedas.rs` lines
144-162): the 17-entry arrow table, index 0 is calm. -/
def AMEDAS_WIND_DIRECTION_ARROW : List String :=
  ["・", "⇙", "⇙", "⇐", "⇐", "⇖", "⇖", "⇑", "⇑", "⇗", "⇗", "⇒", "⇒",
   "⇘", "⇘", "⇓", "⇓"]

/-- Embedding of `AMEDAS_WEATHER_EMOJI_SLACK` (`src/amedas.rs`). -/
def AMEDAS_WEATHER_EMOJI_SLACK : List (Nat × String) :=
  [(0, ":sunny:"), (1, ":cloud:"), (2, ":fog:"), (3, ":fogggy:"),
   (4, ":umbrella_with_rain_drops:"), (5, ":umbrella_with_rain_drops:"),
   (6, ":fog:"), (7, ":umbrella_with_rain_drops:"),
   (8, ":umbrella_with_rain_drops:"), (9, ":snowflake:"), (10, ":snowman:"),
   (11, ":snow_cloud:"), (12, ":snow_cloud:"), (13, ":partly_sunny_rain:"),
   (14, ":partly_sunny_rain:"), (15, ":snowflake:"), (16, ":lightning:"),
   (100, ":night_with_stars:"), (999, ":construction:")]

/-- Embedding of `AMEDAS_WEATHER_EMOJI_DISCORD` (`src/amedas.rs`). -/
def AMEDAS_WEATHER_EMOJI_DISCORD : List (Nat × String) :=
  [(0, ":sunny:"), (1, ":cloud:"), (2, ":fog:"), (3, ":fogggy:"),
   (4, ":umbrella:"), (5, ":umbrella:"), (6, ":fog:"), (7, ":umbrella:"),
   (8, ":umbrella:"), (9, ":snowflake:"), (10, ":snowman2:"),
   (11, ":cloud_snow:"), (12, ":cloud_snow:"), (13, ":white_sun_rain_cloud:"),
   (14, ":white_sun_rain_cloud:"), (15, ":snowflake:"), (16, ":thunder_cloud_rain:"),
   (100, ":night_with_stars:"), (999, ":construction:")]

/-- Embedding of `weather_emoji` (`src/amedas.rs` lines 249-261): scan the
table; return the entry for `code` as soon as it is found, remembering the
entry for code 999 along the way; the final `code_999.unwrap()` of the
source is the `Option` result (`none` models the panic, which cannot occur
on the two fixed tables since both contain 999). -/
def weather_emoji (code : Nat) : List (Nat × String) → Option String → Option String
  | [], code999 => code999
  | e :: rest, code999 =>
    if code = e.1 then some e.2
    else weather_emoji code rest (if e.1 = 999 then some e.2 else code999)

/-- Embedding of `struct AmedasData` from `src/amedas.rs` (`f32` as `Int`,
as in `AmedasRawData`). -/
structure AmedasData where
  pressure_hpa : Int
  temp_c : Int
  humidity_percent : Int
  visibility_m : Int
  weather : Option Nat
  snow1h : Option Int
  precipitation10m : Int
  wind_direction : Nat
  wind_mps : Int
  weather_slack_emoji : String
  weather_discord_emoji : String
  wind_direction_str : String
  wind_direction_emoji : String
deriving DecidableEq, Repr

/-- Embedding of `impl From<&AmedasRawData> for AmedasData`
(`src/amedas.rs` lines 296-334).  Rust's `from` is a Lean keyword, hence
`fromRaw`.  The result is an `Option`: `none` models the panics of the
source — the `unwrap` inside `weather_emoji` and, more importantly, the
unchecked indexing `AMEDAS_WIND_DIRECTION_STR[wind_direction as usize]`
into the two 17-entry tables. -/
def AmedasData.fromRaw (amedas : AmedasRawData) : Option AmedasData :=
  let wsd : Option Nat × Option String × Option String :=
    match amedas.weather with
    | some w =>
      (some w.1, weather_emoji w.1 AMEDAS_WEATHER_EMOJI_SLACK none,
       weather_emoji w.1 AMEDAS_WEATHER_EMOJI_DISCORD none)
    | none =>
      (none, weather_emoji 999 AMEDAS_WEATHER_EMOJI_SLACK none,
       weather_emoji 999 AMEDAS_WEATHER_EMOJI_DISCORD none)
  match wsd with
  | (weather, some slack, some discord) =>
    let wind_direction := amedas.wind_direction.1.getD 0
    let wind := amedas.wind.1.getD 0
    match AMEDAS_WIND_DIRECTION_STR.get? wind_direction,
          AMEDAS_WIND_DIRECTION_ARROW.get? wind_direction with
    | some wind_direction_str, some wind_direction_emoji =>
      some { pressure_hpa := amedas.pressure.1
             temp_c := amedas.temp.1
             humidity_percent := amedas.humidity.1
             visibility_m := amedas.visibility.1
             weather := weather
             snow1h := amedas.snow1h.map Prod.fst
             precipitation10m := amedas.precipitation10m.1
             wind_direction := wind_direction
             wind_mps := wind
             weather_slack_emoji := slack
             weather_discord_emoji := discord
             wind_direction_str := wind_direction_str
             wind_direction_emoji := wind_direction_emoji }
    | _, _ => none
  | _ => none

/-! ### RFC 3339 timestamp parsing and the observation URL -/

/-- Local clock fields of a parsed RFC 3339 timestamp.  `chrono` also keeps
the fraction and the offset; `create_amedas_url` formats only the local
date and hour, so only those are retained. -/
structure ParsedDateTime where
  year : Nat
  month : Nat
  day : Nat
  hour : Nat
  minute : Nat
  second : Nat
deriving DecidableEq, Repr

/-- Two ASCII digits from the front of a character list. -/
def takeDigits2 : List Char → Option (Nat × List Char)
  | c1 :: c2 :: rest =>
    if c1.isDigit && c2.isDigit then
      some ((c1.toNat - 48) * 10 + (c2.toNat - 48), rest)
    else none
  | _ => none

/-- Four ASCII digits from the front of a character list. -/
def takeDigits4 : List Char → Option (Nat × List Char)
  | c1 :: c2 :: c3 :: c4 :: rest =>
    if c1.isDigit && c2.isDigit && c3.isDigit && c4.isDigit then
      some ((c1.toNat - 48) * 1000 + (c2.toNat - 48) * 100 +
            (c3.toNat - 48) * 10 + (c4.toNat - 48), rest)
    else none
  | _ => none

def isLeapYear (y : Nat) : Bool :=
  y % 4 = 0 && (y % 100 ≠ 0 || y % 400 = 0)

def daysInMonth (y m : Nat) : Nat :=
  if m = 2 then (if isLeapYear y then 29 else 28)
  else if m = 4 ∨ m = 6 ∨ m = 9 ∨ m = 11 then 30
  else 31

/-- An optional fractional-seconds part: absent, or a dot followed by at
least one digit. -/
def dropFraction : List Char → Option (List Char)
  | '.' :: rest =>
    if (rest.takeWhile Char.isDigit).isEmpty then none
    else some (rest.dropWhile Char.isDigit)
  | rest => some rest

/-- A numeric offset or `Z`/`z`, consuming the whole remainder. -/
def validOffset : List Char → Bool
  | ['Z'] => true
  | ['z'] => true
  | sign :: rest =>
    (sign = '+' || sign = '-') &&
    (match takeDigits2 rest with
     | some (oh, ':' :: rest2) =>
       oh ≤ 23 &&
       (match takeDigits2 rest2 with
        | some (om, []) => om ≤ 59
        | _ => false)
     | _ => false)
  | _ => false

/-- Model of `chrono::DateTime::parse_from_rfc3339` (an external library
call): `YYYY-MM-DDTHH:MM:SS[.frac](Z|±HH:MM)`, with `t`/`z`/space accepted
where chrono accepts them, calendar-valid date, hour at most 23, minute at
most 59, second at most 60 (leap second).  The local clock fields are
returned as written; `create_amedas_url` never converts time zones. -/
def parse_from_rfc3339 (s : String) : Option ParsedDateTime :=
  match takeDigits4 s.data with
  | some (y, '-' :: r1) =>
    match takeDigits2 r1 with
    | some (mo, '-' :: r2) =>
      match takeDigits2 r2 with
      | some (d, sep :: r3) =>
        if sep = 'T' || sep = 't' || sep = ' ' then
          match takeDigits2 r3 with
          | some (h, ':' :: r4) =>
            match takeDigits2 r4 with
            | some (mi, ':' :: r5) =>
              match takeDigits2 r5 with
              | some (sec, r6) =>
                match dropFraction r6 with
                | some r7 =>
                  if validOffset r7 && 1 ≤ mo && mo ≤ 12 && 1 ≤ d &&
                     d ≤ daysInMonth y mo && h ≤ 23 && mi ≤ 59 && sec ≤ 60 then
                    some ⟨y, mo, d, h, mi, sec⟩
                  else none
                | none => none
              | _ => none
            | _ => none
          | _ => none
        else none
      | _ => none
    | _ => none
  | _ => none

/-- Zero-padding to two digits: Rust's `{:02}` format for the values at
hand. -/
def pad2 (n : Nat) : String :=
  if n < 10 then "0" ++ toString n else toString n

/-- Zero-padding to four digits: `chrono`'s `%Y` for the years the parser
admits (at most 9999). -/
def pad4 (n : Nat) : String :=
  if n < 10 then "000" ++ toString n
  else if n < 100 then "00" ++ toString n
  else if n < 1000 then "0" ++ toString n
  else toString n

/-- Embedding of the constant `AMEDAS_URL` (`src/amedas.rs` line 85). -/
def AMEDAS_URL : String := "https://www.jma.go.jp/bosai/amedas/data/point"

/-- Embedding of `create_amedas_url` (`src/amedas.rs` lines 101-107):
parse the update timestamp, format the local date as `%Y%m%d`, truncate the
local hour down to a multiple of three, and assemble the document URL. -/
def create_amedas_url (amedas_code update_str : String) :
    Except AmedasError String :=
  match parse_from_rfc3339 update_str with
  | none => Except.error AmedasError.chronoParseError
  | some datetime =>
    let date := pad4 datetime.year ++ pad2 datetime.month ++ pad2 datetime.day
    let multiples_of_3_hour := datetime.hour / 3 * 3
    Except.ok (AMEDAS_URL ++ "/" ++ amedas_code ++ "/" ++ date ++ "_" ++
               pad2 multiples_of_3_hour ++ ".json")

/-! ## JSON values and serde-style deserialization

`Areas::new` and the two forecast accessors start from a fetched
`serde_json::Value`.  `Json` embeds that value type (numbers as `Int`; the
documents the claims touch carry no fractional numbers).  The
deserializers below embed the serde derives of the corresponding Rust
structs: required fields must be present with the right shape, optional
fields accept absence or `null`, unknown fields are ignored. -/

inductive Json where
  | null
  | bool (b : Bool)
  | num (n : Int)
  | str (s : String)
  | arr (xs : List Json)
  | obj (fields : List (String × Json))

namespace Json

/-- Embedding of `serde_json::Value`'s `[usize]` indexing: element of an
array, `Null` out of bounds or on a non-array. -/
def idx : Json → Nat → Json
  | arr xs, n => (xs.get? n).getD null
  | _, _ => null

/-- Embedding of `serde_json::Value`'s `["key"]` indexing: member of an
object, `Null` when absent or on a non-object. -/
def getf : Json → String → Json
  | obj fields, k => (fields.lookup k).getD null
  | _, _ => null

/-- Embedding of `serde_json::Value::get(key)`: `None` when absent or on a
non-object. -/
def objGet : Json → String → Option Json
  | obj fields, k => fields.lookup k
  | _, _ => none

end Json

/-- A required `String` field value. -/
def desString : Json → Except String String
  | Json.str s => Except.ok s
  | _ => Except.error "expected a string"

/-- An `Option<String>` field value: absent fields are handled by the
caller; `null` deserializes to `None`. -/
def desOptString : Option Json → Except String (Option String)
  | none => Except.ok none
  | some Json.null => Except.ok none
  | some (Json.str s) => Except.ok (some s)
  | some _ => Except.error "expected a string or null"

/-- A `Vec<String>` value. -/
def desStringList : Json → Except String (List String)
  | Json.arr xs => xs.mapM desString
  | _ => Except.error "expected an array"

/-- An `Option<Vec<String>>` field value. -/
def desOptStringList : Option Json → Except String (Option (List String))
  | none => Except.ok none
  | some Json.null => Except.ok none
  | some (Json.arr xs) => (xs.mapM desString).map some
  | some _ => Except.error "expected an array or null"

/-- Deserialization of `RawArea` (serde derive with camelCase renaming):
`name` and `enName` required strings, the rest optional. -/
def desRawArea : Json → Except String RawArea
  | Json.obj fields => do
    let name ← match fields.lookup "name" with
      | some v => desString v
      | none => Except.error "missing field name"
    let en_name ← match fields.lookup "enName" with
      | some v => desString v
      | none => Except.error "missing field enName"
    let kana ← desOptString (fields.lookup "kana")
    let parent ← desOptString (fields.lookup "parent")
    let office_name ← desOptString (fields.lookup "officeName")
    let children ← desOptStringList (fields.lookup "children")
    Except.ok ⟨name, en_name, kana, parent, office_name, children⟩
  | _ => Except.error "expected an object"

/-- Deserialization of a `HashMap<String, V>`: an object whose member
values all deserialize with `f`. -/
def desStringMap (f : Json → Except String α) :
    Json → Except String (List (String × α))
  | Json.obj fields => fields.mapM fun kv => do
      let v ← f kv.2
      Except.ok (kv.1, v)
  | _ => Except.error "expected an object"

/-- Deserialization of `Areas` (serde derive): the five per-level tables,
all required. -/
def desAreas (j : Json) : Except String Areas :=
  match j with
  | Json.obj fields => do
    let centers ← match fields.lookup "centers" with
      | some v => desStringMap desRawArea v
      | none => Except.error "missing field centers"
    let offices ← match fields.lookup "offices" with
      | some v => desStringMap desRawArea v
      | none => Except.error "missing field offices"
    let class10s ← match fields.lookup "class10s" with
      | some v => desStringMap desRawArea v
      | none => Except.error "missing field class10s"
    let class15s ← match fields.lookup "class15s" with
      | some v => desStringMap desRawArea v
      | none => Except.error "missing field class15s"
    let class20s ← match fields.lookup "class20s" with
      | some v => desStringMap desRawArea v
      | none => Except.error "missing field class20s"
    Except.ok ⟨centers, offices, class10s, class15s, class20s⟩
  | _ => Except.error "expected an object"

/-- Outcome of calling a Rust function, distinguishing a panic from the
tagged error value the function returns. -/
inductive CallResult (ε : Type) (α : Type) where
  | ok (a : α)
  | err (e : ε)
  | panicked
deriving DecidableEq, Repr

/-- Embedding of `Areas::new` (`src/area.rs` lines 236-241) applied to the
already-fetched response: a transport failure is propagated with `?` as a
tagged error, while the `serde_json::from_value(..).unwrap()` on the
response body panics when the JSON does not deserialize.  The transport
error payload (`reqwest::Error`) is opaque, modelled by `Unit`. -/
def Areas.fromResponse (resp : Except Unit Json) : CallResult Unit Areas :=
  match resp with
  | Except.error e => CallResult.err e
  | Except.ok j =>
    match desAreas j with
    | Except.ok areas => CallResult.ok areas
    | Except.error _ => CallResult.panicked

/-! ## Forecast reader (`src/forecast.rs`) -/

/-- Embedding of `struct TempsArea` from `src/forecast.rs`. -/
structure TempsArea where
  code : String
  name : String
deriving DecidableEq, Repr

/-- Embedding of `struct Temps` from `src/forecast.rs`. -/
structure Temps where
  area : TempsArea
  temps : List String
deriving DecidableEq, Repr

/-- Embedding of `struct PeakTemps` from `src/forecast.rs` (the serde
rename maps the JSON member `timeDefines` onto `time_defines`). -/
structure PeakTemps where
  time_defines : List String
  areas : List Temps
deriving DecidableEq, Repr

/-- Embedding of `struct PeakTemp` from `src/forecast.rs`. -/
structure PeakTemp where
  report_datetime : String
  area_name : String
  area_code : String
  lowest : String
  lowest_datetime : String
  highest : String
  highest_datetime : String
deriving DecidableEq, Repr

/-- Deserialization of `TempsArea`: `code` and `name` required strings. -/
def desTempsArea : Json → Except String TempsArea
  | Json.obj fields => do
    let code ← match fields.lookup "code" with
      | some v => desString v
      | none => Except.error "missing field code"
    let name ← match fields.lookup "name" with
      | some v => desString v
      | none => Except.error "missing field name"
    Except.ok ⟨code, name⟩
  | _ => Except.error "expected an object"

/-- Deserialization of `Temps`: required `area` object and `temps` string
array. -/
def desTemps : Json → Except String Temps
  | Json.obj fields => do
    let area ← match fields.lookup "area" with
      | some v => desTempsArea v
      | none => Except.error "missing field area"
    let temps ← match fields.lookup "temps" with
      | some v => desStringList v
      | none => Except.error "missing field temps"
    Except.ok ⟨area, temps⟩
  | _ => Except.error "expected an object"

/-- Deserialization of `Vec<Temps>`. -/
def desTempsList : Json → Except String (List Temps)
  | Json.arr xs => xs.mapM desTemps
  | _ => Except.error "expected an array"

/-- Deserialization of `PeakTemps`: required `timeDefines` string array and
`areas` array. -/
def desPeakTemps : Json → Except String PeakTemps
  | Json.obj fields => do
    let time_defines ← match fields.lookup "timeDefines" with
      | some v => desStringList v
      | none => Except.error "missing field timeDefines"
    let areas ← match fields.lookup "areas" with
      | some v => desTempsList v
      | none => Except.error "missing field areas"
    Except.ok ⟨time_defines, areas⟩
  | _ => Except.error "expected an object"

/-- The `self.json[0]["timeSeries"][2]` access shared by the two forecast
accessors. -/
def timeSeries2 (json : Json) : Json :=
  ((json.idx 0).getf "timeSeries").idx 2

/-- Embedding of `JmaForecast::get_temperature_points` (`src/forecast.rs`
lines 291-293): deserialize `json[0]["timeSeries"][2]["areas"]` and
`unwrap`, which panics whenever that fragment does not deserialize.  The
function has no error channel at all, hence `Empty`. -/
def get_temperature_points (json : Json) : CallResult Empty (List Temps) :=
  match desTempsList ((timeSeries2 json).getf "areas") with
  | Except.ok temps => CallResult.ok temps
  | Except.error _ => CallResult.panicked

/-- The `reportDatetime` extraction of `JmaForecast::temperature_forecast`
(`src/forecast.rs` lines 301-315): the document must be an array whose
first object carries a string member `reportDatetime`. -/
def reportDT (json : Json) : Option String :=
  match json with
  | Json.arr xs =>
    match xs.head? with
    | some first_object =>
      match first_object.objGet "reportDatetime" with
      | some (Json.str s) => some s
      | _ => none
    | none => none
  | _ => none

/-- Embedding of `JmaForecast::temperature_forecast` (`src/forecast.rs`
lines 295-358).  The wall clock read `Local::now().hour()` becomes the
explicit `hour` argument. -/
def temperature_forecast (json : Json) (hour : Nat) (area_code : String) :
    Option PeakTemp :=
  match desPeakTemps (timeSeries2 json) with
  | Except.error _ => none
  | Except.ok peaks =>
    match reportDT json with
    | none => none
    | some report_datetime =>
      let li := if 5 ≤ hour ∧ hour < 17 then 2 else 0
      let hi := if 5 ≤ hour ∧ hour < 17 then 0 else 1
      match peaks.time_defines.get? li with
      | none => none
      | some lowest_datetime =>
        match peaks.time_defines.get? hi with
        | none => none
        | some highest_datetime =>
          match peaks.areas.find? (fun a => a.area.code == area_code) with
          | none => none
          | some area =>
            match area.temps.get? li with
            | none => none
            | some lowest =>
              match area.temps.get? hi with
              | none => none
              | some highest =>
                some ⟨report_datetime, area.area.name, area.area.code,
                      lowest, lowest_datetime, highest, highest_datetime⟩

/-! ## Concrete inputs used by counterexamples and witnesses -/

/-- A hierarchy fragment used to instantiate the hypotheses of the claims:
the Fukuoka office with one Class10 child, as in `area.json`. -/
def rawOfficeW : RawArea :=
  ⟨"福岡県", "Fukuoka", none, some "010900", some "福岡管区気象台", some ["400010"]⟩

def rawClass10W : RawArea :=
  ⟨"福岡地方", "Fukuoka Region", none, some "400000", none, none⟩

def areasW : Areas :=
  ⟨[], [("400000", rawOfficeW)], [("400010", rawClass10W)], [], []⟩

def aW : Area := Area.new JmaAreaClass.Class10 "400010" rawClass10W

def officeW : Area := Area.new JmaAreaClass.Office "400000" rawOfficeW

/-- The hierarchy refuting claim C1 as stated: one center whose localized
name is the upper-case ASCII string `ABC`. -/
def rawC1 : RawArea := ⟨"ABC", "x", none, none, none, none⟩

def areasC1 : Areas := ⟨[("c1", rawC1)], [], [], [], []⟩

/-- The observation map refuting claim C2 as stated: its only key, `007`,
parses as the integer 7, but the decimal rendering of that maximum (`7`)
is not a key of the map. -/
def rawC2 : AmedasRawData :=
  ⟨(10051, 0), (4, 0), (69, 0), (20000, 0), none, none, (0, 0), (some 3, 0), (some 2, 0)⟩

/-- The observation map instantiating the amended claim C2: the later
entry (key `20251010120000`) lacks a weather field; the earlier entry
(key `20251010090000`) has one. -/
def rawEarlyC2 : AmedasRawData :=
  ⟨(10010, 0), (3, 0), (60, 0), (10000, 0), some (1, 0), some (5, 0), (0, 0),
   (none, 0), (none, 0)⟩

def dataC2 : List (String × AmedasRawData) :=
  [("20251010120000", rawC2), ("20251010090000", rawEarlyC2)]

/-- A concrete forecast document with one temperature-series region. -/
def forecastJsonW : Json :=
  Json.arr [Json.obj [
    ("reportDatetime", Json.str "2025-03-28T17:00:00+09:00"),
    ("timeSeries", Json.arr [Json.null, Json.null,
      Json.obj [
        ("timeDefines", Json.arr [Json.str "t0", Json.str "t1", Json.str "t2"]),
        ("areas", Json.arr [Json.obj [
          ("area", Json.obj [("code", Json.str "31312"), ("name", Json.str "青森")]),
          ("temps", Json.arr [Json.str "3", Json.str "9", Json.str "1"])]])]])]]

def peaksW : PeakTemps :=
  ⟨["t0", "t1", "t2"], [⟨⟨"31312", "青森"⟩, ["3", "9", "1"]⟩]⟩

/-- A raw reading with wind-direction index 17, outside both tables. -/
def rawWd17 : AmedasRawData :=
  ⟨(10051, 0), (4, 0), (69, 0), (20000, 0), none, none, (0, 0),
   (some 17, 0), (some 2, 0)⟩

/-! ## Theorems -/

theorem level_le_four (c : JmaAreaClass) : c.level ≤ 4 := by
  cases c <;> decide

/-- As long as the fuel covers the starting level, the bounded walk agrees
with `Areas::ancestor`. -/
theorem ancestorSteps_eq (self : Areas) :
    ∀ (fuel : Nat) (a : Area) (cls : JmaAreaClass), a.cls.level ≤ fuel →
      self.ancestorSteps fuel a cls = self.ancestor a cls := by
  intro fuel
  induction fuel with
  | zero =>
    intro a cls hle
    rw [Areas.ancestorSteps, Areas.ancestor]
    by_cases h : a.cls = cls
    · simp [h]
    · simp only [if_neg h]
      cases hp : self.parent a
      · rfl
      · exact absurd (Nat.lt_of_lt_of_le (Areas.parent_cls_level hp) hle)
          (Nat.not_lt_zero _)
  | succ n ih =>
    intro a cls hle
    rw [Areas.ancestorSteps, Areas.ancestor]
    by_cases h : a.cls = cls
    · simp [h]
    · simp only [if_neg h]
      cases hp : self.parent a
      · rfl
      · exact ih _ cls
          (Nat.le_of_lt_succ (Nat.lt_of_lt_of_le (Areas.parent_cls_level hp) hle))

/-- The walk `Areas::ancestor` only ever returns a record of the class it was asked
for. -/
theorem ancestor_cls {self : Areas} :
    ∀ (a : Area) (cls : JmaAreaClass) (r : Area),
      self.ancestor a cls = some r → r.cls = cls := by
  have key : ∀ (n : Nat) (a : Area), a.cls.level ≤ n →
      ∀ (cls : JmaAreaClass) (r : Area),
        self.ancestor a cls = some r → r.cls = cls := by
    intro n
    induction n with
    | zero =>
      intro a hle cls r h
      rw [Areas.ancestor] at h
      by_cases hc : a.cls = cls
      · rw [if_pos hc] at h
        cases h
        exact hc
      · rw [if_neg hc] at h
        cases hp : self.parent a <;> rw [hp] at h
        · exact absurd h (by simp)
        · exact absurd (Nat.lt_of_lt_of_le (Areas.parent_cls_level hp) hle)
            (Nat.not_lt_zero _)
    | succ n ih =>
      intro a hle cls r h
      rw [Areas.ancestor] at h
      by_cases hc : a.cls = cls
      · rw [if_pos hc] at h
        cases h
        exact hc
      · rw [if_neg hc] at h
        cases hp : self.parent a <;> rw [hp] at h
        · exact absurd h (by simp)
        · exact ih _
            (Nat.le_of_lt_succ (Nat.lt_of_lt_of_le (Areas.parent_cls_level hp) hle))
            cls r h
  intro a cls r h
  exact key a.cls.level a (Nat.le_refl _) cls r h

/-- Claim C4: for every area record `r` and every hierarchy, `ancestor`
called with `r`'s own class returns `r` itself unchanged.  The statement
holds for arbitrary `self` — in particular for hierarchies in which `r`
does not occur at all and for empty tables — which is the formal content of
"no parent lookup is performed". -/
theorem claim_C4_ancestor_same_class (self : Areas) (a : Area) :
    self.ancestor a a.cls = some a := by
  rw [Areas.ancestor]
  simp

/-- Claim C5: when the target class is strictly above the record's level,
`ancestor` returns either a record of exactly the target class or nothing.
(The proof uses `ancestor_cls`, which holds for every target class.) -/
theorem claim_C5_ancestor_level (self : Areas) (a : Area) (cls : JmaAreaClass)
    (hlt : cls.level < a.cls.level) :
    ∀ r : Area, self.ancestor a cls = some r → r.cls = cls := by
  intro r h
  exact ancestor_cls a cls r h

/-- Claim C6: the ancestor walk terminates on every hierarchy document —
including documents whose parent codes form cycles or dangle — because each
`parent` step re-resolves at the class one level up and `Center` has no
parent class.  Every starting level is at most 4, so four parent
resolutions always suffice: the walk agrees with the four-step bounded walk
`ancestorSteps` on all inputs.  (`Areas.ancestor` being accepted as a total
function, with `Area.cls.level` as the decreasing measure, is itself the
termination argument.) -/
theorem claim_C6_ancestor_terminates (self : Areas) (a : Area) (cls : JmaAreaClass) :
    a.cls.level ≤ 4 ∧ self.ancestorSteps 4 a cls = self.ancestor a cls :=
  ⟨level_le_four a.cls, ancestorSteps_eq self 4 a cls (level_le_four a.cls)⟩

/-- Witness for claim C5: a concrete Class10 record whose ancestor at the
Office level exists, and is indeed an Office-level record. -/
theorem claim_C5_witness :
    areasW.ancestor aW JmaAreaClass.Office = some officeW ∧
      officeW.cls = JmaAreaClass.Office := by
  have h : areasW.ancestor aW JmaAreaClass.Office = some officeW := by
    rw [← ancestorSteps_eq areasW 4 aW JmaAreaClass.Office (by decide)]
    decide
  exact ⟨h, claim_C5_ancestor_level areasW aW JmaAreaClass.Office (by decide) officeW h⟩

/-! ### Search (claim C1) -/

/-- On an association list with distinct keys, `lookup` of a member's key
finds that member's value. -/
theorem lookup_eq_of_mem {l : List (String × RawArea)}
    (hn : (l.map Prod.fst).Nodup) {kv : String × RawArea} (hm : kv ∈ l) :
    l.lookup kv.1 = some kv.2 := by
  induction l with
  | nil => cases hm
  | cons hd tl ih =>
    obtain ⟨k, v⟩ := hd
    rw [List.map_cons, List.nodup_cons] at hn
    rcases List.mem_cons.mp hm with heq | htl
    · subst heq
      simp [List.lookup]
    · have hmem : kv.1 ∈ tl.map Prod.fst := List.mem_map_of_mem Prod.fst htl
      have hne : kv.1 ≠ k := fun he => hn.1 (he ▸ hmem)
      have hbeq : (kv.1 == k) = false := beq_eq_false_iff_ne.mpr hne
      simp only [List.lookup, hbeq]
      exact ih hn.2 htl

theorem flatMap_congr {α β : Type _} {l : List α} {f g : α → List β}
    (h : ∀ a ∈ l, f a = g a) : l.flatMap f = l.flatMap g := by
  induction l with
  | nil => rfl
  | cons hd tl ih =>
    rw [List.flatMap_cons, List.flatMap_cons, h hd (List.mem_cons_self hd tl),
        ih fun a ha => h a (List.mem_cons_of_mem hd ha)]

/-- Claim C1, amended: for every hierarchy whose per-level tables have
distinct keys (as `HashMap`s do) and every keyword, `Areas::search` returns
exactly the records matched level by level in the fixed order Center,
Office, Class10, Class15, Class20, where an entry matches if its code
equals the keyword verbatim, or its localized name starts with the
**lower-cased** keyword, or its lower-cased English name starts with the
lower-cased keyword; a record matching several criteria appears once per
matched criterion. -/
theorem claim_C1_search_eq_spec (self : Areas) (keyword : String)
    (hn : self.keysNodup) :
    self.search keyword = Areas.searchSpec Areas.amendedCriteria self keyword := by
  unfold Areas.search Areas.searchSpec
  refine flatMap_congr fun cls _ => ?_
  refine flatMap_congr fun kv hkv => ?_
  have hlk : (self.areas cls).lookup kv.1 = some kv.2 :=
    lookup_eq_of_mem (hn cls) hkv
  obtain ⟨k, v⟩ := kv
  simp only [Areas.searchEntry, Areas.amendedCriteria, Areas.values, hlk,
    List.filterMap]
  by_cases h1 : k = keyword <;>
    by_cases h2 : strStartsWith v.name (strToLower keyword) <;>
      by_cases h3 : strStartsWith (strToLower v.en_name) (strToLower keyword) <;>
        simp [h1, h2, h3, Option.toList, Area.new]

/-- Counterexample to claim C1 as stated: with keyword `ABC`, the record
named `ABC` matches the claim's criterion "its localized name starts with
the keyword", yet `Areas::search` returns nothing — the code compares the
raw name against the lower-cased keyword (`abc`), which does not match. -/
theorem claim_C1_counterexample :
    areasC1.search "ABC" = [] ∧
      Areas.searchSpec Areas.claimCriteria areasC1 "ABC" =
        [Area.new JmaAreaClass.Center "c1" rawC1] := by
  exact ⟨by decide, by decide⟩

/-- Witness for the amended claim C1 at a concrete hierarchy and keyword:
the keyword `400000` matches the Fukuoka office by code, and the search
result equals the spec-side description. -/
theorem claim_C1_witness :
    areasW.search "400000" =
        Areas.searchSpec Areas.amendedCriteria areasW "400000" ∧
      areasW.search "400000" = [officeW] :=
  ⟨claim_C1_search_eq_spec areasW "400000" (by intro cls; cases cls <;> decide),
   by decide⟩

/-! ### Latest observation (claim C2)

Order facts about the byte-lexicographic string comparison, needed to tie
the minimum computed by the fold in `get_latest_data` to the spec-side
description "the minimum timestamp key". -/

theorem charsLt_irrefl : ∀ cs : List Char, charsLt cs cs = false := by
  intro cs
  induction cs with
  | nil => rfl
  | cons c cs ih => simp [charsLt, ih, lt_self_iff_false]

theorem charsLt_trans :
    ∀ as bs cs : List Char,
      charsLt as bs = true → charsLt bs cs = true → charsLt as cs = true := by
  intro as
  induction as with
  | nil =>
    intro bs cs h1 h2
    cases bs with
    | nil => simp [charsLt] at h1
    | cons b bs =>
      cases cs with
      | nil => simp [charsLt] at h2
      | cons c cs => simp [charsLt]
  | cons a as ih =>
    intro bs cs h1 h2
    cases bs with
    | nil => simp [charsLt] at h1
    | cons b bs =>
      cases cs with
      | nil => simp [charsLt] at h2
      | cons c cs =>
        simp only [charsLt, Bool.or_eq_true, Bool.and_eq_true, beq_iff_eq,
          decide_eq_true_eq] at h1 h2 ⊢
        rcases h1 with hab | ⟨hab, h1'⟩
        · rcases h2 with hbc | ⟨hbc, _⟩
          · exact Or.inl (lt_trans hab hbc)
          · exact Or.inl (by rw [← hbc]; exact hab)
        · rcases h2 with hbc | ⟨hbc, h2'⟩
          · exact Or.inl (by rw [hab]; exact hbc)
          · exact Or.inr ⟨hab.trans hbc, ih bs cs h1' h2'⟩

theorem charsLt_trichotomy :
    ∀ as bs : List Char, charsLt as bs = true ∨ charsLt bs as = true ∨ as = bs := by
  intro as
  induction as with
  | nil =>
    intro bs
    cases bs with
    | nil => exact Or.inr (Or.inr rfl)
    | cons b bs => exact Or.inl (by simp [charsLt])
  | cons a as ih =>
    intro bs
    cases bs with
    | nil => exact Or.inr (Or.inl (by simp [charsLt]))
    | cons b bs =>
      rcases lt_trichotomy a b with hab | hab | hab
      · exact Or.inl (by simp [charsLt, hab])
      · rcases ih bs with h | h | h
        · exact Or.inl (by simp [charsLt, hab, h])
        · exact Or.inr (Or.inl (by simp [charsLt, hab, h]))
        · exact Or.inr (Or.inr (by rw [hab, h]))
      · exact Or.inr (Or.inl (by simp [charsLt, hab]))

/-- From `r ≤ b` and `b ≤ a` follows `r ≤ a` (with `x ≤ y` spelled
`strLt y x = false`). -/
theorem strLt_false_trans {a b c : String}
    (h1 : strLt b a = false) (h2 : strLt c b = false) : strLt c a = false := by
  simp only [strLt] at h1 h2 ⊢
  by_contra h
  rw [Bool.not_eq_false] at h
  rcases charsLt_trichotomy a.data b.data with hab | hab | hab
  · have hcb : charsLt c.data b.data = true := charsLt_trans _ _ _ h hab
    simp [h2] at hcb
  · simp [h1] at hab
  · have hcb : charsLt c.data b.data = true := by rw [← hab]; exact h
    simp [h2] at hcb

/-- From `r ≤ k` and `k < a` follows `r ≤ a`. -/
theorem strLt_lt_false {r k a : String}
    (h1 : strLt k r = false) (h2 : strLt k a = true) : strLt a r = false := by
  simp only [strLt] at h1 h2 ⊢
  by_contra h
  rw [Bool.not_eq_false] at h
  have hkr : charsLt k.data r.data = true := charsLt_trans _ _ _ h2 h
  simp [h1] at hkr

theorem foldMin_mem :
    ∀ (t : List String) (a : String),
      t.foldl (fun m k => if strLt k m then k else m) a = a ∨
        t.foldl (fun m k => if strLt k m then k else m) a ∈ t := by
  intro t
  induction t with
  | nil => intro a; exact Or.inl rfl
  | cons k rest ih =>
    intro a
    rw [List.foldl_cons]
    cases hk : strLt k a <;>
      simp only [hk, if_true, if_false, Bool.false_eq_true, reduceIte]
    · rcases ih a with h | h
      · exact Or.inl h
      · exact Or.inr (List.mem_cons_of_mem _ h)
    · rcases ih k with h | h
      · refine Or.inr ?_
        rw [h]
        exact List.mem_cons_self k rest
      · exact Or.inr (List.mem_cons_of_mem _ h)

theorem foldMin_not_lt :
    ∀ (t : List String) (a y : String), (y = a ∨ y ∈ t) →
      strLt y (t.foldl (fun m k => if strLt k m then k else m) a) = false := by
  intro t
  induction t with
  | nil =>
    intro a y hy
    rcases hy with rfl | h
    · exact charsLt_irrefl y.data
    · cases h
  | cons k rest ih =>
    intro a y hy
    rw [List.foldl_cons]
    cases hk : strLt k a <;>
      simp only [hk, if_true, if_false, Bool.false_eq_true, reduceIte]
    · rcases hy with hya | hmem
      · rw [hya]
        exact ih a a (Or.inl rfl)
      · rcases List.mem_cons.mp hmem with hyk | hrest
        · rw [hyk]
          exact strLt_false_trans (ih a a (Or.inl rfl)) hk
        · exact ih a y (Or.inr hrest)
    · rcases hy with hya | hmem
      · rw [hya]
        exact strLt_lt_false (ih k k (Or.inl rfl)) hk
      · rcases List.mem_cons.mp hmem with hyk | hrest
        · rw [hyk]
          exact ih k k (Or.inl rfl)
        · exact ih k y (Or.inr hrest)

theorem strMinFold_mem {l : List String} {m : String}
    (h : strMinFold l = some m) : m ∈ l := by
  cases l with
  | nil => cases h
  | cons hd tl =>
    simp only [strMinFold, Option.some.injEq] at h
    rw [← h]
    rcases foldMin_mem tl hd with h' | h'
    · rw [h']
      exact List.mem_cons_self hd tl
    · exact List.mem_cons_of_mem _ h'

theorem strMinFold_not_lt {l : List String} {m : String}
    (h : strMinFold l = some m) : ∀ y ∈ l, strLt y m = false := by
  cases l with
  | nil => cases h
  | cons hd tl =>
    simp only [strMinFold, Option.some.injEq] at h
    intro y hy
    rw [← h]
    rcases List.mem_cons.mp hy with hyhd | hrest
    · rw [hyhd]
      exact foldMin_not_lt tl hd hd (Or.inl rfl)
    · exact foldMin_not_lt tl hd y (Or.inr hrest)

/-- Counterexample to claim C2 as stated: a timestamp key (`007`) parses as
an integer, so by the claim the reading at the numerically-maximum key
should be returned — yet `get_latest_data` returns nothing, because it
re-renders the maximum as `7` and looks that string up in the map. -/
theorem claim_C2_counterexample :
    parseU64 "007" = some 7 ∧ get_latest_data [("007", rawC2)] = none :=
  ⟨by decide, by decide⟩

/-- Claim C2, amended: `get_latest_data` returns nothing when no timestamp
key parses as an integer, **or when the decimal rendering of the maximal
parsed value is not itself a key**; otherwise it returns the reading stored
at that key, with its `weather` and `snow1h` fields replaced by those of
the minimum timestamp key whose entry carries a non-absent weather field
(unchanged when no entry does).  In particular, when the later entry lacks
a weather field and an earlier entry has one, the numeric fields come from
the later entry and the weather fields from the earlier one. -/
theorem claim_C2_latest_reading (data : List (String × AmedasRawData)) :
    ((data.filterMap fun kv => parseU64 kv.1) = [] → get_latest_data data = none) ∧
    ∀ m : Nat, m ∈ (data.filterMap fun kv => parseU64 kv.1) →
      (∀ x ∈ (data.filterMap fun kv => parseU64 kv.1), x ≤ m) →
      (data.lookup (toString m) = none → get_latest_data data = none) ∧
      ∀ r, data.lookup (toString m) = some r →
        ((data.filterMap fun kv =>
            if kv.2.weather.isSome then some kv.1 else none) = [] →
          get_latest_data data = some r) ∧
        ∀ wk wr,
          wk ∈ (data.filterMap fun kv =>
            if kv.2.weather.isSome then some kv.1 else none) →
          (∀ y ∈ (data.filterMap fun kv =>
            if kv.2.weather.isSome then some kv.1 else none), strLt y wk = false) →
          data.lookup wk = some wr →
          get_latest_data data =
            some { r with weather := wr.weather, snow1h := wr.snow1h } := by
  constructor
  · intro hemp
    unfold get_latest_data
    rw [hemp]
    rfl
  · intro m hm hall
    have hmax : (data.filterMap fun kv => parseU64 kv.1).max? = some m :=
      List.max?_eq_some_iff'.mpr ⟨hm, hall⟩
    constructor
    · intro hlk
      unfold get_latest_data
      simp only [hmax, hlk]
    · intro r hr
      constructor
      · intro hwemp
        unfold get_latest_data
        simp only [hmax, hr, hwemp]
        rfl
      · intro wk wr hwk hallw hlkw
        have hne : (data.filterMap fun kv =>
            if kv.2.weather.isSome then some kv.1 else none) ≠ [] := by
          intro he
          rw [he] at hwk
          cases hwk
        obtain ⟨m', hm'⟩ : ∃ m', strMinFold (data.filterMap fun kv =>
            if kv.2.weather.isSome then some kv.1 else none) = some m' := by
          cases hl : (data.filterMap fun kv =>
              if kv.2.weather.isSome then some kv.1 else none) with
          | nil => exact absurd hl hne
          | cons hd tl => exact ⟨_, rfl⟩
        have hm'mem := strMinFold_mem hm'
        have hm'le := strMinFold_not_lt hm'
        have heq : m' = wk := by
          rcases charsLt_trichotomy m'.data wk.data with h | h | h
          · have := hallw m' hm'mem
            simp only [strLt] at this
            simp [this] at h
          · have := hm'le wk hwk
            simp only [strLt] at this
            simp [this] at h
          · cases m'
            cases wk
            simp only at h
            rw [h]
        rw [heq] at hm'
        unfold get_latest_data
        simp only [hmax, hr, hm', hlkw]

/-- Witness for the amended claim C2: the numeric fields of the result come
from the later entry, the weather-related fields from the earlier one. -/
theorem claim_C2_witness :
    get_latest_data dataC2 =
      some { rawC2 with weather := some (1, 0), snow1h := some (5, 0) } :=
  ((((claim_C2_latest_reading dataC2).2 20251010120000 (by decide)
      (by decide)).2 rawC2 (by decide)).2 "20251010090000" rawEarlyC2
    (by decide) (by decide) (by decide))

/-! ### Error surfacing (claim C3) -/

/-- Counterexample to claim C3 as stated: on a response whose JSON is an
object without the expected members, `Areas::new` and
`JmaForecast::get_temperature_points` panic (they `unwrap` the
deserialization result) instead of returning a terminal failure value. -/
theorem claim_C3_counterexample :
    Areas.fromResponse (Except.ok (Json.obj [])) = CallResult.panicked ∧
      get_temperature_points (Json.obj []) = CallResult.panicked :=
  ⟨rfl, rfl⟩

/-- Claim C3, amended: transport failures are surfaced as tagged error
values and well-shaped documents as ordinary values, but a response whose
JSON does not match the expected structure makes `Areas::new` and
`JmaForecast::get_temperature_points` panic — neither returns a failure
value for a shape mismatch. -/
theorem claim_C3_error_surfacing :
    (∀ e : Unit, Areas.fromResponse (Except.error e) = CallResult.err e) ∧
    (∀ j : Json, (∀ a, desAreas j ≠ Except.ok a) →
      Areas.fromResponse (Except.ok j) = CallResult.panicked) ∧
    (∀ j : Json, ∀ a, desAreas j = Except.ok a →
      Areas.fromResponse (Except.ok j) = CallResult.ok a) ∧
    (∀ j : Json, (∀ ts, desTempsList ((timeSeries2 j).getf "areas") ≠ Except.ok ts) →
      get_temperature_points j = CallResult.panicked) ∧
    (∀ j : Json, ∀ ts, desTempsList ((timeSeries2 j).getf "areas") = Except.ok ts →
      get_temperature_points j = CallResult.ok ts) := by
  refine ⟨fun e => rfl, fun j h => ?_, fun j a h => ?_, fun j h => ?_, fun j ts h => ?_⟩
  · cases hd : desAreas j with
    | ok a => exact absurd hd (h a)
    | error e => simp [Areas.fromResponse, hd]
  · simp [Areas.fromResponse, h]
  · cases hd : desTempsList ((timeSeries2 j).getf "areas") with
    | ok ts => exact absurd hd (h ts)
    | error e => simp [get_temperature_points, hd]
  · simp [get_temperature_points, h]

/-- Witness for the amended claim C3 at concrete inputs: a transport error
is tagged, and an array response (where an object is expected) panics. -/
theorem claim_C3_witness :
    Areas.fromResponse (Except.error ()) = CallResult.err () ∧
      Areas.fromResponse (Except.ok (Json.arr [])) = CallResult.panicked ∧
      get_temperature_points (Json.arr []) = CallResult.panicked :=
  ⟨claim_C3_error_surfacing.1 (),
   claim_C3_error_surfacing.2.1 (Json.arr []) (fun a h => Except.noConfusion h),
   claim_C3_error_surfacing.2.2.2.1 (Json.arr []) (fun ts h => Except.noConfusion h)⟩

/-! ### Observation URL construction (claims C7 and C8) -/

theorem charsStartWith_nil (cs : List Char) : charsStartWith cs [] = true := by
  cases cs <;> rfl

theorem charsStartWith_append (p rest : List Char) :
    charsStartWith (p ++ rest) p = true := by
  induction p with
  | nil => exact charsStartWith_nil rest
  | cons c cs ih => simp [charsStartWith, ih]

theorem strEndsWith_append (a b : String) : strEndsWith (a ++ b) b = true := by
  unfold strEndsWith
  rw [String.data_append, List.reverse_append]
  exact charsStartWith_append b.data.reverse a.data.reverse

/-- Claim C7: for every update timestamp accepted by the RFC 3339 parser,
the local hour is at most 23, and the URL built by `create_amedas_url` is
the base, the station code, and the date formatted `YYYYMMDD` followed by
the hour bucket `H - H % 3` zero-padded to two digits; in particular the
URL ends in that date-and-bucket document name. -/
theorem claim_C7_url_bucket (code s : String) (dt : ParsedDateTime)
    (h : parse_from_rfc3339 s = some dt) :
    dt.hour ≤ 23 ∧
    create_amedas_url code s =
      Except.ok (AMEDAS_URL ++ "/" ++ code ++ "/" ++
        (pad4 dt.year ++ pad2 dt.month ++ pad2 dt.day) ++ "_" ++
        pad2 (dt.hour - dt.hour % 3) ++ ".json") ∧
    ∀ url, create_amedas_url code s = Except.ok url →
      strEndsWith url
        (pad4 dt.year ++ pad2 dt.month ++ pad2 dt.day ++ "_" ++
          pad2 (dt.hour - dt.hour % 3) ++ ".json") = true := by
  have hdiv : dt.hour / 3 * 3 = dt.hour - dt.hour % 3 := by omega
  have hh : dt.hour ≤ 23 := by
    unfold parse_from_rfc3339 at h
    repeat' split at h
    all_goals cases h
    rename_i hcond
    simp only [Bool.and_eq_true, decide_eq_true_eq] at hcond
    exact hcond.1.1.2
  have hurl : create_amedas_url code s =
      Except.ok (AMEDAS_URL ++ "/" ++ code ++ "/" ++
        (pad4 dt.year ++ pad2 dt.month ++ pad2 dt.day) ++ "_" ++
        pad2 (dt.hour - dt.hour % 3) ++ ".json") := by
    unfold create_amedas_url
    rw [h]
    show Except.ok (AMEDAS_URL ++ "/" ++ code ++ "/" ++
      (pad4 dt.year ++ pad2 dt.month ++ pad2 dt.day) ++ "_" ++
      pad2 (dt.hour / 3 * 3) ++ ".json") = _
    rw [hdiv]
  refine ⟨hh, hurl, fun url hu => ?_⟩
  rw [hurl] at hu
  cases hu
  have hgroup : AMEDAS_URL ++ "/" ++ code ++ "/" ++
      (pad4 dt.year ++ pad2 dt.month ++ pad2 dt.day) ++ "_" ++
      pad2 (dt.hour - dt.hour % 3) ++ ".json" =
    (AMEDAS_URL ++ "/" ++ code ++ "/") ++
      (pad4 dt.year ++ pad2 dt.month ++ pad2 dt.day ++ "_" ++
        pad2 (dt.hour - dt.hour % 3) ++ ".json") := by
    apply congrArg String.mk
    simp [String.data_append, List.append_assoc]
  rw [hgroup]
  exact strEndsWith_append _ _

/-- Witness for claim C7 (the spec's own examples): at local hour 23 the
bucket is `21`, and at hour 2 the bucket would be `00`. -/
theorem claim_C7_witness :
    parse_from_rfc3339 "2025-10-10T23:15:35+09:00" =
        some ⟨2025, 10, 10, 23, 15, 35⟩ ∧
      pad2 (2 - 2 % 3) = "00" ∧
      pad2 (23 - 23 % 3) = "21" ∧
      create_amedas_url "12345" "2025-10-10T23:15:35+09:00" =
        Except.ok (AMEDAS_URL ++ "/" ++ "12345" ++ "/" ++
          (pad4 2025 ++ pad2 10 ++ pad2 10) ++ "_" ++ pad2 (23 - 23 % 3) ++
          ".json") := by
  have hp : parse_from_rfc3339 "2025-10-10T23:15:35+09:00" =
      some ⟨2025, 10, 10, 23, 15, 35⟩ := by decide
  exact ⟨hp, by decide, by decide,
    (claim_C7_url_bucket "12345" "2025-10-10T23:15:35+09:00" _ hp).2.1⟩

/-- Claim C8: a malformed update timestamp — one the RFC 3339 parser
rejects — makes `create_amedas_url` return the timestamp-parse error value;
there is no panic and no defaulted URL. -/
theorem claim_C8_malformed_timestamp (code s : String)
    (h : parse_from_rfc3339 s = none) :
    create_amedas_url code s = Except.error AmedasError.chronoParseError := by
  unfold create_amedas_url
  rw [h]

/-- Witness for claim C8: a bare date with no time component is rejected by
the parser and yields the parse-error result. -/
theorem claim_C8_witness :
    parse_from_rfc3339 "2025-10-10" = none ∧
      create_amedas_url "12345" "2025-10-10" =
        Except.error AmedasError.chronoParseError :=
  ⟨by decide, claim_C8_malformed_timestamp "12345" "2025-10-10" (by decide)⟩

/-! ### Temperature forecast (claim C9) -/

/-- Claim C9: `temperature_forecast` uses temperature/time indices
`(low, high) = (2, 0)` when the local hour is in `[5, 17)` and `(0, 1)`
otherwise; it returns nothing when the requested area code is not in the
series or when a selected index is out of range of the time-defines or
per-area temperature arrays, and otherwise returns the entries at those
indices. -/
theorem claim_C9_temperature_forecast (j : Json) (hour : Nat) (code : String)
    (peaks : PeakTemps) (hdes : desPeakTemps (timeSeries2 j) = Except.ok peaks) :
    (peaks.areas.find? (fun a => a.area.code == code) = none →
      temperature_forecast j hour code = none) ∧
    (peaks.time_defines.get? (if 5 ≤ hour ∧ hour < 17 then 2 else 0) = none →
      temperature_forecast j hour code = none) ∧
    (peaks.time_defines.get? (if 5 ≤ hour ∧ hour < 17 then 0 else 1) = none →
      temperature_forecast j hour code = none) ∧
    (∀ area, peaks.areas.find? (fun a => a.area.code == code) = some area →
      (area.temps.get? (if 5 ≤ hour ∧ hour < 17 then 2 else 0) = none ∨
       area.temps.get? (if 5 ≤ hour ∧ hour < 17 then 0 else 1) = none) →
      temperature_forecast j hour code = none) ∧
    (∀ rdt ldt hdt area lo hit,
      reportDT j = some rdt →
      peaks.time_defines.get? (if 5 ≤ hour ∧ hour < 17 then 2 else 0) = some ldt →
      peaks.time_defines.get? (if 5 ≤ hour ∧ hour < 17 then 0 else 1) = some hdt →
      peaks.areas.find? (fun a => a.area.code == code) = some area →
      area.temps.get? (if 5 ≤ hour ∧ hour < 17 then 2 else 0) = some lo →
      area.temps.get? (if 5 ≤ hour ∧ hour < 17 then 0 else 1) = some hit →
      temperature_forecast j hour code =
        some ⟨rdt, area.area.name, area.area.code, lo, ldt, hit, hdt⟩) := by
  refine ⟨?_, ?_, ?_, ?_, ?_⟩
  · intro hfind
    unfold temperature_forecast
    simp only [hdes]
    cases hrdt : reportDT j with
    | none => rfl
    | some rdt =>
      cases hld : peaks.time_defines.get? (if 5 ≤ hour ∧ hour < 17 then 2 else 0) with
      | none => rfl
      | some ldt =>
        cases hhd : peaks.time_defines.get? (if 5 ≤ hour ∧ hour < 17 then 0 else 1) with
        | none => rfl
        | some hdt => simp only [hfind]
  · intro hld
    unfold temperature_forecast
    simp only [hdes]
    cases hrdt : reportDT j with
    | none => rfl
    | some rdt => simp only [hld]
  · intro hhd
    unfold temperature_forecast
    simp only [hdes]
    cases hrdt : reportDT j with
    | none => rfl
    | some rdt =>
      cases hld : peaks.time_defines.get? (if 5 ≤ hour ∧ hour < 17 then 2 else 0) with
      | none => rfl
      | some ldt => simp only [hhd]
  · intro area hfind htemps
    unfold temperature_forecast
    simp only [hdes]
    cases hrdt : reportDT j with
    | none => rfl
    | some rdt =>
      cases hld : peaks.time_defines.get? (if 5 ≤ hour ∧ hour < 17 then 2 else 0) with
      | none => rfl
      | some ldt =>
        cases hhd : peaks.time_defines.get? (if 5 ≤ hour ∧ hour < 17 then 0 else 1) with
        | none => rfl
        | some hdt =>
          simp only [hfind]
          rcases htemps with hlo | hhi
          · simp only [hlo]
          · cases hlo : area.temps.get? (if 5 ≤ hour ∧ hour < 17 then 2 else 0) with
            | none => rfl
            | some lo => simp only [hhi]
  · intro rdt ldt hdt area lo hit hrdt hld hhd hfind hlo hhi
    unfold temperature_forecast
    simp only [hdes, hrdt, hld, hhd, hfind, hlo, hhi]

/-- Witness for claim C9: at hour 6 the indices are `(2, 0)`, at hour 20
they are `(0, 1)`, and an unknown area code gives nothing. -/
theorem claim_C9_witness :
    temperature_forecast forecastJsonW 6 "31312" =
      some ⟨"2025-03-28T17:00:00+09:00", "青森", "31312", "1", "t2", "3", "t0"⟩ ∧
    temperature_forecast forecastJsonW 20 "31312" =
      some ⟨"2025-03-28T17:00:00+09:00", "青森", "31312", "3", "t0", "9", "t1"⟩ ∧
    temperature_forecast forecastJsonW 6 "99999" = none := by
  have hdes : desPeakTemps (timeSeries2 forecastJsonW) = Except.ok peaksW := by rfl
  refine ⟨?_, ?_, ?_⟩
  · exact (claim_C9_temperature_forecast forecastJsonW 6 "31312" peaksW hdes).2.2.2.2
      "2025-03-28T17:00:00+09:00" "t2" "t0" ⟨⟨"31312", "青森"⟩, ["3", "9", "1"]⟩
      "1" "3" (by rfl) (by decide) (by decide) (by decide) (by decide) (by decide)
  · exact (claim_C9_temperature_forecast forecastJsonW 20 "31312" peaksW hdes).2.2.2.2
      "2025-03-28T17:00:00+09:00" "t0" "t1" ⟨⟨"31312", "青森"⟩, ["3", "9", "1"]⟩
      "3" "9" (by rfl) (by decide) (by decide) (by decide) (by decide) (by decide)
  · exact (claim_C9_temperature_forecast forecastJsonW 6 "99999" peaksW hdes).1
      (by decide)

/-! ### Raw-to-display conversion (claim C10) -/

theorem weather_emoji_isSome (c : Nat) :
    ∀ (table : List (Nat × String)) (acc : Option String),
      (999 ∈ table.map Prod.fst ∨ acc.isSome = true) →
      (weather_emoji c table acc).isSome = true := by
  intro table
  induction table with
  | nil =>
    intro acc h
    rcases h with h | h
    · simp at h
    · exact h
  | cons e rest ih =>
    intro acc h
    rw [weather_emoji]
    by_cases hc : c = e.1
    · simp [hc]
    · rw [if_neg hc]
      apply ih
      by_cases h999 : e.1 = 999
      · right
        simp [h999]
      · rcases h with h | h
        · left
          rw [List.map_cons] at h
          rcases List.mem_cons.mp h with h' | h'
          · exact absurd h'.symm h999
          · exact h'
        · right
          simpa [h999] using h

/-- The weather/emoji stage of `AmedasData::from` always succeeds (both
fixed tables carry the fallback code 999), leaving the conversion to hinge
on the wind-direction table indexing alone. -/
theorem fromRaw_wind_match (raw : AmedasRawData) :
    ∃ (weather : Option Nat) (slack discord : String),
      AmedasData.fromRaw raw =
        match AMEDAS_WIND_DIRECTION_STR.get? (raw.wind_direction.1.getD 0),
              AMEDAS_WIND_DIRECTION_ARROW.get? (raw.wind_direction.1.getD 0) with
        | some wds, some wde =>
          some { pressure_hpa := raw.pressure.1, temp_c := raw.temp.1,
                 humidity_percent := raw.humidity.1,
                 visibility_m := raw.visibility.1, weather := weather,
                 snow1h := raw.snow1h.map Prod.fst,
                 precipitation10m := raw.precipitation10m.1,
                 wind_direction := raw.wind_direction.1.getD 0,
                 wind_mps := raw.wind.1.getD 0,
                 weather_slack_emoji := slack, weather_discord_emoji := discord,
                 wind_direction_str := wds, wind_direction_emoji := wde }
        | _, _ => none := by
  cases hw : raw.weather with
  | none =>
    obtain ⟨s, hsv⟩ := Option.isSome_iff_exists.mp
      (weather_emoji_isSome 999 AMEDAS_WEATHER_EMOJI_SLACK none (Or.inl (by decide)))
    obtain ⟨dc, hdv⟩ := Option.isSome_iff_exists.mp
      (weather_emoji_isSome 999 AMEDAS_WEATHER_EMOJI_DISCORD none (Or.inl (by decide)))
    exact ⟨none, s, dc, by simp only [AmedasData.fromRaw, hw, hsv, hdv]⟩
  | some wv =>
    obtain ⟨s, hsv⟩ := Option.isSome_iff_exists.mp
      (weather_emoji_isSome wv.1 AMEDAS_WEATHER_EMOJI_SLACK none (Or.inl (by decide)))
    obtain ⟨dc, hdv⟩ := Option.isSome_iff_exists.mp
      (weather_emoji_isSome wv.1 AMEDAS_WEATHER_EMOJI_DISCORD none (Or.inl (by decide)))
    exact ⟨some wv.1, s, dc, by simp only [AmedasData.fromRaw, hw, hsv, hdv]⟩

/-- Claim C10: the raw-to-display conversion treats an absent
wind-direction index as 0 and an absent wind speed as 0, and indexes the
two fixed 17-entry direction tables with that index: whenever the index is
at most 16 the conversion succeeds, its wind fields are the defaulted raw
values and its direction strings come from the tables at that index, while
an index greater than 16 falls outside both tables and the conversion hits
the out-of-bounds panic (modelled as `none`). -/
theorem claim_C10_from_raw (raw : AmedasRawData) :
    AMEDAS_WIND_DIRECTION_STR.length = 17 ∧
    AMEDAS_WIND_DIRECTION_ARROW.length = 17 ∧
    (raw.wind_direction.1.getD 0 ≤ 16 →
      (AmedasData.fromRaw raw).isSome = true) ∧
    (∀ d, AmedasData.fromRaw raw = some d →
      d.wind_direction = raw.wind_direction.1.getD 0 ∧
      d.wind_mps = raw.wind.1.getD 0 ∧
      AMEDAS_WIND_DIRECTION_STR.get? d.wind_direction = some d.wind_direction_str ∧
      AMEDAS_WIND_DIRECTION_ARROW.get? d.wind_direction = some d.wind_direction_emoji) ∧
    (∀ w, raw.wind_direction.1 = some w → 16 < w →
      AmedasData.fromRaw raw = none) := by
  obtain ⟨weather, slack, discord, heq⟩ := fromRaw_wind_match raw
  have hlen1 : AMEDAS_WIND_DIRECTION_STR.length = 17 := rfl
  have hlen2 : AMEDAS_WIND_DIRECTION_ARROW.length = 17 := rfl
  refine ⟨rfl, rfl, ?_, ?_, ?_⟩
  · intro hle
    have h17s : raw.wind_direction.1.getD 0 < AMEDAS_WIND_DIRECTION_STR.length := by
      rw [hlen1]
      omega
    have h17a : raw.wind_direction.1.getD 0 < AMEDAS_WIND_DIRECTION_ARROW.length := by
      rw [hlen2]
      omega
    rw [heq, List.get?_eq_get h17s, List.get?_eq_get h17a]
    rfl
  · intro d hdd
    rw [heq] at hdd
    cases hg1 : AMEDAS_WIND_DIRECTION_STR.get? (raw.wind_direction.1.getD 0) with
    | none => rw [hg1] at hdd; cases hdd
    | some wds =>
      cases hg2 : AMEDAS_WIND_DIRECTION_ARROW.get? (raw.wind_direction.1.getD 0) with
      | none => rw [hg1, hg2] at hdd; cases hdd
      | some wde =>
        rw [hg1, hg2] at hdd
        cases hdd
        exact ⟨rfl, rfl, hg1, hg2⟩
  · intro w hww h16
    rw [heq, hww]
    simp only [Option.getD_some]
    have hg1 : AMEDAS_WIND_DIRECTION_STR.get? w = none := by
      apply List.get?_eq_none.mpr
      rw [hlen1]
      omega
    have hg2 : AMEDAS_WIND_DIRECTION_ARROW.get? w = none := by
      apply List.get?_eq_none.mpr
      rw [hlen2]
      omega
    rw [hg1, hg2]

/-- Witness for claim C10: index 17 hits the out-of-bounds panic, while a
reading with absent wind fields converts successfully, with calm direction
0 and wind speed 0. -/
theorem claim_C10_witness :
    AmedasData.fromRaw rawWd17 = none ∧
      (AmedasData.fromRaw rawEarlyC2).isSome = true ∧
      (∀ d, AmedasData.fromRaw rawEarlyC2 = some d →
        d.wind_direction = 0 ∧ d.wind_mps = 0) :=
  ⟨(claim_C10_from_raw rawWd17).2.2.2.2 17 rfl (by decide),
   (claim_C10_from_raw rawEarlyC2).2.2.1 (by decide),
   fun d hdd => by
     have h := (claim_C10_from_raw rawEarlyC2).2.2.2.1 d hdd
     exact ⟨h.1, h.2.1⟩⟩

end Jma
